import Mathlib

/-!
Shallow embedding of the Context & Session Management subsystem of the
ai-collaboration-mcp-server (`src/index.ts`).

Modelling conventions:
* JS strings are lists of characters (`Str`); `String.prototype.split`,
  `slice(0, n)`, `includes`, `toLowerCase` are modelled by executable
  functions on `List Char` below.
* JS `Date` values are integer milliseconds since the epoch (`Int`);
  `Date.now()` is passed in as an explicit `now` argument.
* JS numeric scores (the relevance computation) are rationals (`ℚ`).
* File-system and network effects are passed in as explicit arguments
  (e.g. the parsed content of the history file, the result of a file
  read as an `Option`), and mutation of `this` is explicit state passing.
-/

abbrev Str := List Char

def str (s : String) : Str := s.data

/-- JS `String.prototype.toLowerCase`, restricted to the ASCII case mapping
(all the strings the claims are about are ASCII). -/
def toLowerStr (s : Str) : Str := s.map Char.toLower

/-- Fuel-indexed scanner behind `splitOnL`: JS `String.prototype.split` with a
non-empty string separator scans left to right and cuts at each leftmost
non-overlapping occurrence of the separator.  `fuel` only pays for the
recursion; `splitOnL` always supplies enough. -/
def splitOnAux (sep : Str) : Nat → Str → Str → List Str
  | _, acc, [] => [acc.reverse]
  | 0, acc, s => [acc.reverse ++ s]
  | fuel+1, acc, c :: rest =>
    if sep.isPrefixOf (c :: rest) then
      acc.reverse :: splitOnAux sep fuel [] (rest.drop (sep.length - 1))
    else splitOnAux sep fuel (c :: acc) rest

/-- JS `s.split(sep)` for a non-empty string separator (the source only ever
splits on the two fixed section markers, which are non-empty). -/
def splitOnL (s sep : Str) : List Str :=
  if sep.isEmpty then [s] else splitOnAux sep s.length [] s

/-- JS `String.prototype.includes` (substring containment). -/
def containsSub (sep : Str) : Str → Bool
  | [] => sep.isEmpty
  | c :: rest => sep.isPrefixOf (c :: rest) || containsSub sep rest

/-! ## ProviderCallManager (the per-provider rate limiter) -/

structure ProviderCallTracker where
  provider : Str
  calls : Nat
  lastReset : Int
  maxCalls : Nat
deriving DecidableEq

def MAX_CALLS_PER_PROVIDER : Nat := 3

def RESET_INTERVAL : Int := 60 * 60 * 1000

/-- The per-provider tracker map (`private callTrackers: Map<string, ProviderCallTracker>`),
modelled as a function from provider ids to optional trackers
(`Map.get` returning `undefined` is `none`). -/
structure ProviderCallManager where
  callTrackers : Str → Option ProviderCallTracker

/-- The keys of `AI_PROVIDERS` in the source. -/
def AI_PROVIDER_KEYS : List Str := [str "claude", str "gpt4", str "gemini", str "ollama"]

/-- The `ProviderCallManager` constructor: one fresh tracker per known provider. -/
def initialManager (now : Int) : ProviderCallManager :=
  ⟨fun p =>
    if p ∈ AI_PROVIDER_KEYS then
      some { provider := p, calls := 0, lastReset := now, maxCalls := MAX_CALLS_PER_PROVIDER }
    else none⟩

/-- The lazy window reset duplicated verbatim inside `canMakeCall` and
`getRemainingCalls`: if more than `RESET_INTERVAL` has passed since
`lastReset`, the counter restarts. -/
def resetIfElapsed (t : ProviderCallTracker) (now : Int) : ProviderCallTracker :=
  if RESET_INTERVAL < now - t.lastReset then { t with calls := 0, lastReset := now } else t

/-- `ProviderCallManager.canMakeCall`; the returned manager reflects the
in-place mutation performed by the lazy reset. -/
def canMakeCall (m : ProviderCallManager) (p : Str) (now : Int) : Bool × ProviderCallManager :=
  match m.callTrackers p with
  | none => (false, m)
  | some t =>
    let t' := resetIfElapsed t now
    (decide (t'.calls < t'.maxCalls), ⟨fun q => if q = p then some t' else m.callTrackers q⟩)

/-- `ProviderCallManager.recordCall`: increments the counter unconditionally
when the provider is known, and does nothing at all otherwise.  It performs
no lazy reset. -/
def recordCall (m : ProviderCallManager) (p : Str) : ProviderCallManager :=
  match m.callTrackers p with
  | none => m
  | some t => ⟨fun q => if q = p then some { t with calls := t.calls + 1 } else m.callTrackers q⟩

/-- `ProviderCallManager.getRemainingCalls`: `Math.max(0, maxCalls - calls)`
after the lazy reset. -/
def getRemainingCalls (m : ProviderCallManager) (p : Str) (now : Int) :
    Int × ProviderCallManager :=
  match m.callTrackers p with
  | none => (0, m)
  | some t =>
    let t' := resetIfElapsed t now
    (max 0 ((t'.maxCalls : Int) - (t'.calls : Int)),
     ⟨fun q => if q = p then some t' else m.callTrackers q⟩)

/-! ## ConversationHistoryManager -/

structure ConversationEntry where
  timestamp : Int
  tool : Str
  provider : Str
  query : Str
  response : Str
  contextFiles : List Str
  tokenCount : Nat
deriving DecidableEq

def MAX_HISTORY_ENTRIES : Nat := 20

def MAX_AGE_HOURS : Int := 24

def CONTEXT_FRESHNESS_HOURS : Int := 6

def msPerHour : Int := 60 * 60 * 1000

/-- `ConversationHistoryManager.addEntry`: stamp the entry with the current
time, `unshift` it, and slice the list back to `MAX_HISTORY_ENTRIES` when the
capacity is exceeded.  (The subsequent `persistHistory` call never changes the
in-memory list.) -/
def addEntry (history : List ConversationEntry) (entry : ConversationEntry) (now : Int) :
    List ConversationEntry :=
  let newEntry := { entry with timestamp := now }
  let h := newEntry :: history
  if MAX_HISTORY_ENTRIES < h.length then h.take MAX_HISTORY_ENTRIES else h

/-- `ConversationHistoryManager.loadHistory`.  `file` is the parsed content of
the history file (`none` when the file is missing or unreadable/unparsable, in
which case the history stays empty).  `cutoffDate.setHours(getHours() - 24)`
is modelled as subtracting 24 hours of milliseconds.  Returns the new
in-memory history and whether `persistHistory` was invoked to re-write the
cleaned file. -/
def loadHistory (file : Option (List ConversationEntry)) (now : Int) :
    List ConversationEntry × Bool :=
  match file with
  | none => ([], false)
  | some allEntries =>
    let cutoffDate := now - MAX_AGE_HOURS * msPerHour
    let history := allEntries.filter (fun e => cutoffDate < e.timestamp)
    (history, decide (allEntries.length ≠ history.length))

/-- `ConversationHistoryManager.getRecentHistory`: only entries newer than the
6-hour freshness cutoff, at most `limit` of them. -/
def getRecentHistory (history : List ConversationEntry) (now : Int) (limit : Nat) :
    List ConversationEntry :=
  let freshnessCutoff := now - CONTEXT_FRESHNESS_HOURS * msPerHour
  (history.filter (fun e => freshnessCutoff < e.timestamp)).take limit

/-- The whitespace class of the JS regex `\s` used by `extractKeywords`
(ASCII part; the Unicode space characters never occur in the claims). -/
def isJSWhitespace (c : Char) : Bool :=
  c == ' ' || c == '\t' || c == '\n' || c == '\r' || c == '\x0b' || c == '\x0c'

def splitWSAux : Str → Str → List Str
  | acc, [] => [acc.reverse]
  | acc, c :: rest =>
    if isJSWhitespace c then acc.reverse :: splitWSAux [] rest
    else splitWSAux (c :: acc) rest

/-- `text.split(/\s+/)`.  (This cuts at every whitespace character rather than
at runs, so it may produce extra empty tokens that JS would not; the
`length > 3` filter in `extractKeywords` discards all empty tokens, so
`extractKeywords` itself is unaffected.) -/
def splitWS (s : Str) : List Str := splitWSAux [] s

def stopWords : List Str :=
  [str "that", str "this", str "with", str "from", str "they", str "were",
   str "been", str "have", str "will", str "would", str "could", str "should"]

/-- `ConversationHistoryManager.extractKeywords`. -/
def extractKeywords (text : Str) : List Str :=
  ((splitWS (toLowerStr text)).filter (fun word => 3 < word.length)).filter
    (fun word => !(stopWords.contains word))

/-- `ConversationHistoryManager.calculateRelevance`:
`matches.length / Math.max(keywords.length, 1)`. -/
def calculateRelevance (content : Str) (keywords : List Str) : ℚ :=
  let contentLower := toLowerStr content
  let matched := keywords.filter (fun keyword => containsSub keyword contentLower)
  (matched.length : ℚ) / ((max keywords.length 1 : Nat) : ℚ)

/-- The filter callback of `getRelevantHistory`: the tool-match weight times
the content relevance must exceed the 0.3 threshold. -/
def relevancePasses (keywords : List Str) (tool : Str) (entry : ConversationEntry) : Bool :=
  let toolMatch : ℚ := if entry.tool = tool then 2 else 1
  let contentRelevance :=
    calculateRelevance (entry.query ++ str " " ++ entry.response) keywords
  decide ((3 : ℚ) / 10 < toolMatch * contentRelevance)

/-- `ConversationHistoryManager.getRelevantHistory`: fresh entries, filtered by
the weighted relevance threshold, truncated to `maxEntries`. -/
def getRelevantHistory (history : List ConversationEntry) (now : Int)
    (query tool : Str) (maxEntries : Nat) : List ConversationEntry :=
  let freshEntries := getRecentHistory history now 10
  let keywords := extractKeywords query
  (freshEntries.filter (relevancePasses keywords tool)).take maxEntries

/-! ## ContextManager -/

structure ProjectContext where
  readme : Str
  packageJson : Str
  /-- field `structure` in the source (renamed: `structure` is a Lean keyword) -/
  projectStructure : Str
  lastUpdated : Int
deriving DecidableEq

def MAX_CONTEXT_TOKENS : Nat := 8000

def PROJECT_CONTEXT_TTL : Int := 5 * 60 * 1000

/-- JS `x || y` where `x` is a string read result: `y` when `x` is
`null` (read failure) or the empty string (both falsy). -/
def jsOrStr : Option Str → Str → Str
  | none, d => d
  | some s, d => if s = [] then d else s

/-- The snapshot built on the refresh path of `getProjectContext`.
`readmeRead` and `packageJsonRead` are the results of `readFileIfExists`
(`none` = missing or unreadable file); `structureRead` is the result of
`getProjectStructure` (total: it returns an error placeholder string itself). -/
def refreshedProjectContext (now : Int) (readmeRead packageJsonRead : Option Str)
    (structureRead : Str) : ProjectContext :=
  { readme := jsOrStr readmeRead (str "No README.md found")
    packageJson := jsOrStr packageJsonRead (str "No package.json found")
    projectStructure := jsOrStr (some structureRead) (str "Could not determine project structure")
    lastUpdated := now }

/-- `ContextManager.getProjectContext`: serve the cached snapshot while it is
younger than the TTL, otherwise re-read everything and replace the cache
wholesale.  Returns the context handed to the caller together with the new
cache content. -/
def getProjectContext (cache : Option ProjectContext) (now : Int)
    (readmeRead packageJsonRead : Option Str) (structureRead : Str) :
    ProjectContext × Option ProjectContext :=
  match cache with
  | some pc =>
    if now - pc.lastUpdated < PROJECT_CONTEXT_TTL then (pc, some pc)
    else
      let fresh := refreshedProjectContext now readmeRead packageJsonRead structureRead
      (fresh, some fresh)
  | none =>
    let fresh := refreshedProjectContext now readmeRead packageJsonRead structureRead
    (fresh, some fresh)

/-- `ContextManager.estimateTokenCount`: `Math.ceil(text.length / 4)`. -/
def estimateTokenCount (text : Str) : Nat := (text.length + 3) / 4

/-- JS `s.slice(0, n)` followed by a conditional marker when the field was
longer than `n` (the pattern used throughout `summarizeProject` and
`formatConversationHistory`). -/
def sliceWithMarker (s : Str) (n : Nat) (marker : Str) : Str :=
  s.take n ++ (if n < s.length then marker else [])

/-- `ContextManager.summarizeProject`. -/
def summarizeProject (context : ProjectContext) : Str :=
  str "**Package Info:**\n" ++ sliceWithMarker context.packageJson 500 (str "... (truncated)")
    ++ str "\n\n**README:**\n" ++ sliceWithMarker context.readme 800 (str "... (truncated)")
    ++ str "\n\n**Project Structure:**\n" ++ context.projectStructure

/-- `ContextManager.formatConversationHistory`.  `iso` renders a timestamp the
way `Date.prototype.toISOString` does (passed in as a parameter; nothing below
depends on the concrete rendering). -/
def formatConversationHistory (iso : Int → Str) (history : List ConversationEntry) : Str :=
  if history = [] then str "No previous conversation history"
  else
    List.intercalate (str "\n")
      (history.map (fun entry =>
        str "**" ++ entry.tool ++ str "** (" ++ entry.provider ++ str ") - "
          ++ iso entry.timestamp
          ++ str ":\nQ: " ++ sliceWithMarker entry.query 200 (str "...")
          ++ str "\nA: " ++ sliceWithMarker entry.response 300 (str "...")
          ++ str "\n"))

def historyMarker : Str := str "## Recent Conversation History"

def queryMarker : Str := str "## Current Query"

/-- The literal replacement section written by `truncateContext` on its
collapse path. -/
def collapsedHistorySection : Str :=
  str "## Recent Conversation History\n(Conversation history truncated due to length)\n\n## Current Query"

def hardTruncationMarker : Str := str "\n... (context truncated due to length)"

/-- `ContextManager.truncateContext`. -/
def truncateContext (context : Str) : Str :=
  let targetLength := MAX_CONTEXT_TOKENS * 4
  if context.length ≤ targetLength then context
  else
    match splitOnL context historyMarker with
    | [beforeHistory, afterMarker] =>
      match splitOnL afterMarker queryMarker with
      | [_, afterQuery] => beforeHistory ++ collapsedHistorySection ++ afterQuery
      | _ => context.take targetLength ++ hardTruncationMarker
    | _ => context.take targetLength ++ hardTruncationMarker

/-- The context block assembled by `ContextManager.buildFullContext` before the
token-limit check.  `fileContents` is the result of
`readRelevantFileContents(discoverRelevantFiles(query))`. -/
def assembleContext (iso : Int → Str) (projectContext : ProjectContext) (fileContents : Str)
    (history : List ConversationEntry) (now : Int) (query tool : Str) : Str :=
  let freshHistory := getRecentHistory history now 5
  str "# PROJECT CONTEXT\n\n## Project Overview\n" ++ summarizeProject projectContext
    ++ str "\n\n## Relevant Files\n" ++ fileContents
    ++ str "\n\n## Recent Conversation History\n" ++ formatConversationHistory iso freshHistory
    ++ str "\n\n## Current Query\nTool: " ++ tool ++ str "\nQuery: " ++ query
    ++ str "\n\n---\n\n"

/-- `ContextManager.buildFullContext`: assemble, then truncate only when the
estimated token count exceeds `MAX_CONTEXT_TOKENS`. -/
def buildFullContext (iso : Int → Str) (projectContext : ProjectContext) (fileContents : Str)
    (history : List ConversationEntry) (now : Int) (query tool : Str) : Str :=
  let context := assembleContext iso projectContext fileContents history now query tool
  if MAX_CONTEXT_TOKENS < estimateTokenCount context then truncateContext context else context

/-! ## retryWithBackoff -/

/-- The non-retryable test of `AICollaborationServer.retryWithBackoff`:
case-insensitive substring match against the four auth/client-error markers. -/
def nonRetryableError (msg : Str) : Bool :=
  let m := toLowerStr msg
  containsSub (str "401") m || containsSub (str "403") m ||
    containsSub (str "invalid api key") m || containsSub (str "unauthorized") m

/-- Observable outcome of one `retryWithBackoff` run: the returned value or
the rethrown error, the number of times `operation` was invoked, and the
sequence of backoff delays (ms) actually awaited, in order. -/
structure RetryOutcome (α : Type) where
  result : Except Str α
  invocations : Nat
  delays : List Nat

/-- The retry loop of `retryWithBackoff`.  `operation n` is what the `n`-th
invocation of the operation does (`n` starts at 0 and equals `attempt`);
`remaining = maxRetries - attempt` counts the retries still allowed. -/
def retryGo {α : Type} (operation : Nat → Except Str α) (baseDelay : Nat)
    (attempt invocations : Nat) (delays : List Nat) (remaining : Nat) : RetryOutcome α :=
  match operation attempt with
  | Except.ok v => ⟨Except.ok v, invocations + 1, delays⟩
  | Except.error e =>
    if nonRetryableError e then ⟨Except.error e, invocations + 1, delays⟩
    else
      match remaining with
      | 0 => ⟨Except.error e, invocations + 1, delays⟩
      | r + 1 =>
        retryGo operation baseDelay (attempt + 1) (invocations + 1)
          (delays ++ [baseDelay * 2 ^ attempt]) r

/-- `AICollaborationServer.retryWithBackoff` (defaults in the source:
`maxRetries = 3`, `baseDelay = 200`). -/
def retryWithBackoff {α : Type} (operation : Nat → Except Str α)
    (maxRetries baseDelay : Nat) : RetryOutcome α :=
  retryGo operation baseDelay 0 0 [] maxRetries

/-! ## Scenario constants and auxiliary definitions used by the theorems -/

/-- The entries of the C5 scenario: 25 sequential entries, the `i`-th one
created at time `i`. -/
def seqEntry (i : Nat) : ConversationEntry :=
  { timestamp := (i : Int), tool := str "tool", provider := str "provider",
    query := str "query", response := str "response", contextFiles := [], tokenCount := i }

/-- Appending `n` sequential entries to an initially empty history. -/
def appendSeq (n : Nat) : List ConversationEntry :=
  (List.range n).foldl (fun h i => addEntry h (seqEntry i) (i : Int)) []

/-- A stale and a fresh entry for the C6 witness. -/
def oldEntry : ConversationEntry :=
  { timestamp := 0, tool := str "t", provider := str "p", query := str "q",
    response := str "r", contextFiles := [], tokenCount := 1 }

def freshEntry : ConversationEntry :=
  { timestamp := 86400000, tool := str "t", provider := str "p", query := str "q",
    response := str "r", contextFiles := [], tokenCount := 2 }

/-- The manager after four unchecked `recordCall` invocations for claude,
starting from the initial state at time 0. -/
def fourCalls : ProviderCallManager :=
  recordCall (recordCall (recordCall (recordCall (initialManager 0) (str "claude"))
    (str "claude")) (str "claude")) (str "claude")

/-- Concrete cached snapshot for the C8 witness. -/
def cachedPC : ProjectContext :=
  { readme := str "a", packageJson := str "b", projectStructure := str "c", lastUpdated := 0 }

/-- The snapshot produced by a refresh at time 7 whose package.json read
failed. -/
def degradedPkgPC : ProjectContext :=
  { readme := str "rdm", packageJson := str "No package.json found",
    projectStructure := str "dir", lastUpdated := 7 }

/-- The snapshot produced by a refresh at time 7 whose directory listing came
back empty. -/
def degradedStructPC : ProjectContext :=
  { readme := str "rdm", packageJson := str "pkg",
    projectStructure := str "Could not determine project structure", lastUpdated := 7 }

/-- The snapshot produced by a refresh at time 7 whose readme read failed. -/
def degradedPC : ProjectContext :=
  { readme := str "No README.md found", packageJson := str "pkg",
    projectStructure := str "dir", lastUpdated := 7 }

/-- The always-401 operation of the C3 witness. -/
def alwaysAuthError : Nat → Except Str Nat :=
  fun _ => Except.error (str "Request failed: 401 Unauthorized")

/-- The operation of the C4 witness: three transient failures, then success. -/
def failThriceThenOk : Nat → Except Str Nat :=
  fun n => if n < 3 then Except.error (str "ECONNRESET") else Except.ok 42

/-- A cross-tool entry with full keyword overlap for the C7 counterexample. -/
def crossEntry (i : Nat) : ConversationEntry :=
  { timestamp := 0, tool := str "other", provider := str "p", query := str "keyword",
    response := str "r", contextFiles := [], tokenCount := i }

/-- A same-tool entry with the same keyword overlap, oldest in the history. -/
def sameEntry : ConversationEntry :=
  { timestamp := 0, tool := str "mytool", provider := str "p", query := str "keyword",
    response := str "r", contextFiles := [], tokenCount := 99 }

def prefHistory : List ConversationEntry :=
  [crossEntry 0, crossEntry 1, crossEntry 2, crossEntry 3, crossEntry 4, sameEntry]

/-- `scanClear sep s tail = true` says the left-to-right scan of `s` (with
`tail` following it) never finds `sep` starting at any position of `s`. -/
def scanClear (sep : Str) : Str → Str → Bool
  | [], _ => true
  | c :: rest, tail => !(sep.isPrefixOf ((c :: rest) ++ tail)) && scanClear sep rest tail

/-- ISO rendering stub for the C2 scenario (the history is empty, so it is
never consulted). -/
def cIso : Int → Str := fun _ => []

def cPC : ProjectContext :=
  { readme := str "r", packageJson := str "p", projectStructure := str "s", lastUpdated := 0 }

/-- 33000 characters of relevant-file content: enough to blow the budget. -/
def bigFiller : Str := List.replicate 33000 'a'

/-- The context block assembled from the C2 scenario inputs. -/
def cCtx : Str := assembleContext cIso cPC bigFiller [] 0 (str "q") (str "t")

/-- The project-overview summary of `cPC`, as one literal. -/
def cS : Str := str "**Package Info:**\np\n\n**README:**\nr\n\n**Project Structure:**\ns"

/-- Everything of `cCtx` before the history marker. -/
def cA : Str :=
  str "# PROJECT CONTEXT\n\n## Project Overview\n"
    ++ (cS ++ (str "\n\n## Relevant Files\n" ++ (bigFiller ++ str "\n\n")))

/-- The history section of `cCtx` between the two markers. -/
def cM : Str := str "\n" ++ (str "No previous conversation history" ++ str "\n\n")

/-- The current-query section of `cCtx` after the query marker. -/
def cQ : Str :=
  str "\nTool: " ++ (str "t" ++ (str "\nQuery: " ++ (str "q" ++ str "\n\n---\n\n")))

def cRest : Str := cM ++ (queryMarker ++ cQ)

/-! ## Helper lemmas -/

theorem take_append_take {α : Type} (A B : List α) (n : Nat) :
    (A ++ B.take n).take n = (A ++ B).take n := by
  rw [List.take_append_eq_append_take, List.take_append_eq_append_take, List.take_take,
    Nat.min_eq_left (Nat.sub_le n A.length)]

theorem addEntry_eq_take (h : List ConversationEntry) (e : ConversationEntry) (now : Int) :
    addEntry h e now = (({ e with timestamp := now }) :: h).take MAX_HISTORY_ENTRIES := by
  unfold addEntry
  by_cases hl : MAX_HISTORY_ENTRIES < (({ e with timestamp := now }) :: h).length
  · simp [hl]
  · simp [hl, List.take_of_length_le (Nat.le_of_not_lt hl)]

theorem foldl_addEntry (idx : List Nat) :
    ∀ h : List ConversationEntry,
      idx.foldl (fun h i => addEntry h (seqEntry i) (i : Int)) (h.take MAX_HISTORY_ENTRIES)
        = ((idx.reverse.map seqEntry) ++ h).take MAX_HISTORY_ENTRIES := by
  induction idx with
  | nil => intro h; simp
  | cons i idx ih =>
    intro h
    have hstamp : ({ seqEntry i with timestamp := (i : Int) }) = seqEntry i := rfl
    have step : addEntry (h.take MAX_HISTORY_ENTRIES) (seqEntry i) (i : Int)
        = (seqEntry i :: h).take MAX_HISTORY_ENTRIES := by
      rw [addEntry_eq_take, hstamp, show seqEntry i :: h.take MAX_HISTORY_ENTRIES
            = [seqEntry i] ++ h.take MAX_HISTORY_ENTRIES from rfl,
        take_append_take, List.singleton_append]
    simp only [List.foldl_cons, step, ih (seqEntry i :: h), List.reverse_cons, List.map_append,
      List.map_cons, List.map_nil, List.append_assoc, List.singleton_append]

theorem appendSeq_eq (n : Nat) :
    appendSeq n = (((List.range n).reverse.map seqEntry)).take MAX_HISTORY_ENTRIES := by
  have := foldl_addEntry (List.range n) []
  simpa [appendSeq] using this

/-- Claim C5: the in-memory history never exceeds 20 entries; `addEntry`
inserts the freshly stamped entry at the front and eviction trims the tail
(the update always equals the first 20 elements of the cons); after appending
25 sequential entries exactly 20 remain, newest first, and the oldest 5 are
absent. -/
theorem addEntry_capacity :
    (∀ (h : List ConversationEntry) (e : ConversationEntry) (now : Int),
        h.length ≤ MAX_HISTORY_ENTRIES → (addEntry h e now).length ≤ MAX_HISTORY_ENTRIES) ∧
    (∀ (h : List ConversationEntry) (e : ConversationEntry) (now : Int),
        addEntry h e now = (({ e with timestamp := now }) :: h).take MAX_HISTORY_ENTRIES) ∧
    (appendSeq 25).length = 20 ∧
    appendSeq 25 = ((List.range 25).reverse.take 20).map seqEntry ∧
    (∀ i < 5, seqEntry i ∉ appendSeq 25) := by
  refine ⟨fun h e now _ => ?_, addEntry_eq_take, ?_, ?_, ?_⟩
  · rw [addEntry_eq_take]
    simp [List.length_take]
  · rw [appendSeq_eq]; simp [MAX_HISTORY_ENTRIES]
  · rw [appendSeq_eq, List.map_take]; rfl
  · intro i hi hmem
    rw [appendSeq_eq, ← List.map_take] at hmem
    obtain ⟨j, hj, hji⟩ := List.mem_map.mp hmem
    have hij : j = i := by simpa [seqEntry] using congrArg ConversationEntry.tokenCount hji
    subst hij
    rw [show (List.range 25).reverse.take MAX_HISTORY_ENTRIES
          = [24, 23, 22, 21, 20, 19, 18, 17, 16, 15, 14, 13, 12, 11, 10, 9, 8, 7, 6, 5]
        from by decide] at hj
    simp at hj
    omega

/-- Claim C6: immediately after a load, every file entry older than 24 hours
before the load time is absent from the in-memory history (hence from
`all()`), and if the age filter dropped at least one entry the trimmed set is
re-persisted. -/
theorem loadHistory_age_filter (entries : List ConversationEntry) (now : Int) :
    (∀ e ∈ entries, e.timestamp < now - MAX_AGE_HOURS * msPerHour →
        e ∉ (loadHistory (some entries) now).1) ∧
    ((∃ e ∈ entries, e ∉ (loadHistory (some entries) now).1) →
        (loadHistory (some entries) now).2 = true) := by
  constructor
  · intro e _ hts hmem
    simp only [loadHistory, List.mem_filter, decide_eq_true_eq] at hmem
    exact lt_asymm hts hmem.2
  · rintro ⟨e, he, hnot⟩
    have hpred : ¬(now - MAX_AGE_HOURS * msPerHour < e.timestamp) := by
      intro hp
      exact hnot (List.mem_filter.mpr ⟨he, by simpa using hp⟩)
    simp only [loadHistory, decide_eq_true_eq]
    intro hlen
    have := (List.filter_length_eq_length.mp hlen.symm) e he
    simp only [decide_eq_true_eq] at this
    exact hpred this

/-- Witness for loadHistory_age_filter: loading at time 86400001 ms drops the
entry stamped 0 and marks the file for re-persistence. -/
theorem loadHistory_age_filter_witness :
    oldEntry ∉ (loadHistory (some [oldEntry, freshEntry]) 86400001).1 ∧
    (loadHistory (some [oldEntry, freshEntry]) 86400001).2 = true :=
  ⟨(loadHistory_age_filter [oldEntry, freshEntry] 86400001).1 oldEntry (by decide) (by decide),
   (loadHistory_age_filter [oldEntry, freshEntry] 86400001).2
     ⟨oldEntry, by decide, by decide⟩⟩

/-- Claim C10: `recordCall` is a no-op for an unknown provider; for a known
provider it updates only that provider's tracker, incrementing `calls` by one
while leaving `lastReset`, `maxCalls` and every other provider's tracker
untouched — in particular it never performs the lazy window reset. -/
theorem recordCall_frame (m : ProviderCallManager) (p : Str) :
    (m.callTrackers p = none → recordCall m p = m) ∧
    (∀ t, m.callTrackers p = some t →
      (recordCall m p).callTrackers p = some { t with calls := t.calls + 1 } ∧
      ∀ q, q ≠ p → (recordCall m p).callTrackers q = m.callTrackers q) := by
  constructor
  · intro h
    simp [recordCall, h]
  · intro t h
    constructor
    · simp [recordCall, h]
    · intro q hq
      simp [recordCall, h, hq]

/-- Witness for recordCall_frame: an unknown provider leaves the initial
manager untouched, and one recordCall on claude sets its counter to 1. -/
theorem recordCall_frame_witness :
    recordCall (initialManager 0) (str "nope") = initialManager 0 ∧
    (recordCall (initialManager 0) (str "claude")).callTrackers (str "claude")
      = some { provider := str "claude", calls := 1, lastReset := 0, maxCalls := 3 } :=
  ⟨(recordCall_frame (initialManager 0) (str "nope")).1 (by decide),
   ((recordCall_frame (initialManager 0) (str "claude")).2
     { provider := str "claude", calls := 0, lastReset := 0, maxCalls := 3 } (by decide)).1⟩

/-- Claim C1 counterexample: `recordCall` increments without checking the
quota, so after four unchecked calls within one window (no time has passed
since the window started) claude's counter is 4 while `getRemainingCalls`
clamps at 0, and `remaining + calls = 4 ≠ 3 = limit`. -/
theorem remaining_plus_calls_violation :
    fourCalls.callTrackers (str "claude")
      = some { provider := str "claude", calls := 4, lastReset := 0, maxCalls := 3 } ∧
    (0 : Int) - 0 ≤ RESET_INTERVAL ∧
    (getRemainingCalls fourCalls (str "claude") 0).1 + 4 ≠ 3 :=
  ⟨by decide, by decide, by decide⟩

/-- Claim C1 (amended): within one rate-limit window `getRemainingCalls`
returns `max 0 (maxCalls - calls)`, so `remaining(p) + calls(p) = limit`
holds exactly while `calls ≤ limit` — which is guaranteed when callers check
`canMakeCall` before every `recordCall`, but not after unchecked `recordCall`
invocations push the counter past the quota; initial trackers have
`limit = maxCalls = 3` and `calls = 0`. -/
theorem getRemainingCalls_window_inv (m : ProviderCallManager) (p : Str) (now : Int)
    (t : ProviderCallTracker) (hm : m.callTrackers p = some t)
    (hwin : now - t.lastReset ≤ RESET_INTERVAL) :
    (getRemainingCalls m p now).1 = max 0 ((t.maxCalls : Int) - (t.calls : Int)) ∧
    (t.calls ≤ t.maxCalls →
      (getRemainingCalls m p now).1 + (t.calls : Int) = (t.maxCalls : Int)) ∧
    (∀ t0, (initialManager now).callTrackers p = some t0 →
      t0.maxCalls = 3 ∧ t0.calls = 0) := by
  have hreset : resetIfElapsed t now = t := by
    unfold resetIfElapsed
    rw [if_neg (not_lt.mpr hwin)]
  refine ⟨?_, ?_, ?_⟩
  · simp [getRemainingCalls, hm, hreset]
  · intro hc
    simp only [getRemainingCalls, hm, hreset]
    rw [max_eq_right (by omega : (0 : Int) ≤ (t.maxCalls : Int) - (t.calls : Int))]
    omega
  · intro t0 h0
    simp only [initialManager] at h0
    split at h0
    · cases h0
      exact ⟨rfl, rfl⟩
    · cases h0

/-- Witness for getRemainingCalls_window_inv at the initial manager. -/
theorem getRemainingCalls_window_inv_witness :
    (getRemainingCalls (initialManager 5) (str "claude") 5).1 + ((0 : Nat) : Int)
      = ((3 : Nat) : Int) :=
  (getRemainingCalls_window_inv (initialManager 5) (str "claude") 5
    { provider := str "claude", calls := 0, lastReset := 5, maxCalls := 3 }
    (by decide) (by decide)).2.1 (by decide)

/-- Claim C8: `getProjectContext` returns the cached snapshot unchanged while
it is younger than the 5-minute TTL; otherwise it re-reads readme, manifest
and directory listing and replaces the whole cached snapshot; a failed read of
an individual file degrades only that field to its placeholder string while
the successfully read fields are kept verbatim, for each of the readme, the
package.json manifest, and the directory listing individually — the operation
itself never fails. -/
theorem getProjectContext_spec (pc : ProjectContext) (now : Int)
    (readmeRead packageJsonRead : Option Str) (structureRead : Str) :
    (now - pc.lastUpdated < PROJECT_CONTEXT_TTL →
      getProjectContext (some pc) now readmeRead packageJsonRead structureRead
        = (pc, some pc)) ∧
    (PROJECT_CONTEXT_TTL ≤ now - pc.lastUpdated →
      getProjectContext (some pc) now readmeRead packageJsonRead structureRead
        = (refreshedProjectContext now readmeRead packageJsonRead structureRead,
           some (refreshedProjectContext now readmeRead packageJsonRead structureRead))) ∧
    (∀ p s : Str, p ≠ [] → s ≠ [] →
      refreshedProjectContext now none (some p) s
        = { readme := str "No README.md found", packageJson := p,
            projectStructure := s, lastUpdated := now }) ∧
    (∀ r s : Str, r ≠ [] → s ≠ [] →
      refreshedProjectContext now (some r) none s
        = { readme := r, packageJson := str "No package.json found",
            projectStructure := s, lastUpdated := now }) ∧
    (∀ r p : Str, r ≠ [] → p ≠ [] →
      refreshedProjectContext now (some r) (some p) []
        = { readme := r, packageJson := p,
            projectStructure := str "Could not determine project structure",
            lastUpdated := now }) := by
  refine ⟨?_, ?_, ?_, ?_, ?_⟩
  · intro h
    simp [getProjectContext, h]
  · intro h
    simp [getProjectContext, not_lt.mpr h]
  · intro p s hp hs
    simp [refreshedProjectContext, jsOrStr, hp, hs]
  · intro r s hr hs
    simp [refreshedProjectContext, jsOrStr, hr, hs]
  · intro r p hr hp
    simp [refreshedProjectContext, jsOrStr, hr, hp]

/-- Witness for getProjectContext_spec: a fresh cache is served unchanged, and
a refresh degrades exactly the field whose read failed — the readme, the
package.json, or the directory listing. -/
theorem getProjectContext_spec_witness :
    getProjectContext (some cachedPC) 0 none (some (str "pkg")) (str "dir")
      = (cachedPC, some cachedPC) ∧
    refreshedProjectContext 7 none (some (str "pkg")) (str "dir") = degradedPC ∧
    refreshedProjectContext 7 (some (str "rdm")) none (str "dir") = degradedPkgPC ∧
    refreshedProjectContext 7 (some (str "rdm")) (some (str "pkg")) [] = degradedStructPC :=
  ⟨(getProjectContext_spec cachedPC 0 none (some (str "pkg")) (str "dir")).1 (by decide),
   (getProjectContext_spec cachedPC 7 none (some (str "pkg")) (str "dir")).2.2.1
     (str "pkg") (str "dir") (by decide) (by decide),
   (getProjectContext_spec cachedPC 7 (some (str "rdm")) none (str "dir")).2.2.2.1
     (str "rdm") (str "dir") (by decide) (by decide),
   (getProjectContext_spec cachedPC 7 (some (str "rdm")) (some (str "pkg")) []).2.2.2.2
     (str "rdm") (str "pkg") (by decide) (by decide)⟩

/-- Claim C9: when every whitespace-separated token of the (lower-cased) query
is at most 3 characters long or is a stop word, no keywords are extractable,
every entry's relevance is `0 / max(0,1) = 0`, the weighted score `0` never
exceeds the `0.3` threshold, and `getRelevantHistory` returns the empty list
for every history, tool and limit. -/
theorem getRelevantHistory_no_keywords (query : Str)
    (hq : ∀ t ∈ splitWS (toLowerStr query), t.length ≤ 3 ∨ t ∈ stopWords) :
    ∀ (history : List ConversationEntry) (now : Int) (tool : Str) (maxEntries : Nat),
      getRelevantHistory history now query tool maxEntries = [] := by
  have hkw : extractKeywords query = [] := by
    unfold extractKeywords
    rw [List.filter_eq_nil_iff]
    intro w hw
    obtain ⟨hmem, hlen⟩ := List.mem_filter.mp hw
    rcases hq w hmem with h3 | hstop
    · simp only [decide_eq_true_eq] at hlen
      omega
    · simpa using hstop
  intro history now tool maxEntries
  have hrel : ∀ e : ConversationEntry,
      calculateRelevance (e.query ++ str " " ++ e.response) (extractKeywords query) = 0 := by
    intro e
    rw [hkw]
    simp [calculateRelevance]
  simp only [getRelevantHistory]
  rw [List.filter_eq_nil_iff.mpr ?_, List.take_nil]
  intro e _
  simp only [relevancePasses, hrel e, mul_zero, decide_eq_true_eq]
  norm_num

/-- Witness for getRelevantHistory_no_keywords: a query of stop words and
short tokens selects nothing from a non-empty fresh history. -/
theorem getRelevantHistory_no_keywords_witness :
    getRelevantHistory [freshEntry] 86400000 (str "this with it") (str "t") 5 = [] :=
  getRelevantHistory_no_keywords (str "this with it") (by decide)
    [freshEntry] 86400000 (str "t") 5

/-- Claim C3: when every invocation of the operation fails with a message
carrying a non-retryable marker (401/403/invalid api key/unauthorized,
case-insensitive substring), `retryWithBackoff` invokes the operation exactly
once, awaits no backoff delay, and rethrows that first error unchanged. -/
theorem retryWithBackoff_nonretryable (α : Type) (operation : Nat → Except Str α)
    (h : ∀ n, ∃ e, operation n = Except.error e ∧ nonRetryableError e = true) :
    ∃ e, operation 0 = Except.error e ∧
      retryWithBackoff operation 3 200 = ⟨Except.error e, 1, []⟩ := by
  obtain ⟨e, he, hnr⟩ := h 0
  exact ⟨e, he, by simp [retryWithBackoff, retryGo, he, hnr]⟩

/-- Witness for retryWithBackoff_nonretryable on an operation that always
fails with a 401 message. -/
theorem retryWithBackoff_nonretryable_witness :
    ∃ e, alwaysAuthError 0 = Except.error e ∧
      retryWithBackoff alwaysAuthError 3 200 = ⟨Except.error e, 1, []⟩ :=
  retryWithBackoff_nonretryable Nat alwaysAuthError
    (fun _ => ⟨str "Request failed: 401 Unauthorized", rfl, by decide⟩)

/-- Claim C4: with `maxRetries = 3` and `baseDelay = 200` the operation is
invoked at most 4 times; an operation whose first three invocations fail
transiently and whose fourth succeeds is invoked exactly 4 times, waits
200/400/800 ms before the three retries, and its success value is returned;
and when all four invocations fail transiently the last failure is rethrown
after the same three delays. -/
theorem retryWithBackoff_transient (α : Type) (operation : Nat → Except Str α) :
    ((retryWithBackoff operation 3 200).invocations ≤ 4) ∧
    (∀ e0 e1 e2 (v : α),
      operation 0 = Except.error e0 → nonRetryableError e0 = false →
      operation 1 = Except.error e1 → nonRetryableError e1 = false →
      operation 2 = Except.error e2 → nonRetryableError e2 = false →
      operation 3 = Except.ok v →
      retryWithBackoff operation 3 200 = ⟨Except.ok v, 4, [200, 400, 800]⟩) ∧
    (∀ e0 e1 e2 e3,
      operation 0 = Except.error e0 → nonRetryableError e0 = false →
      operation 1 = Except.error e1 → nonRetryableError e1 = false →
      operation 2 = Except.error e2 → nonRetryableError e2 = false →
      operation 3 = Except.error e3 →
      retryWithBackoff operation 3 200 = ⟨Except.error e3, 4, [200, 400, 800]⟩) := by
  refine ⟨?_, ?_, ?_⟩
  · have hgo : ∀ (remaining attempt invocations : Nat) (delays : List Nat),
        (retryGo operation 200 attempt invocations delays remaining).invocations
          ≤ invocations + remaining + 1 := by
      intro remaining
      induction remaining with
      | zero =>
        intro attempt invocations delays
        unfold retryGo
        cases operation attempt <;> simp
      | succ r ih =>
        intro attempt invocations delays
        unfold retryGo
        cases operation attempt with
        | ok v => simp
        | error e =>
          by_cases hnr : nonRetryableError e = true
          · simp [hnr]
          · simp only [hnr, if_false, Bool.false_eq_true]
            refine le_trans
              (ih (attempt + 1) (invocations + 1) (delays ++ [200 * 2 ^ attempt])) ?_
            omega
    simpa [retryWithBackoff] using hgo 3 0 0 []
  · intro e0 e1 e2 v h0 hn0 h1 hn1 h2 hn2 h3
    simp [retryWithBackoff, retryGo, h0, hn0, h1, hn1, h2, hn2, h3]
  · intro e0 e1 e2 e3 h0 hn0 h1 hn1 h2 hn2 h3
    by_cases hn3 : nonRetryableError e3
    · simp [retryWithBackoff, retryGo, h0, hn0, h1, hn1, h2, hn2, h3, hn3]
    · simp [retryWithBackoff, retryGo, h0, hn0, h1, hn1, h2, hn2, h3, hn3]

/-- Witness for retryWithBackoff_transient: three transient failures then a
success give 4 invocations, delays 200/400/800 ms, and the success value. -/
theorem retryWithBackoff_transient_witness :
    retryWithBackoff failThriceThenOk 3 200
      = ⟨Except.ok 42, 4, [200, 400, 800]⟩ :=
  (retryWithBackoff_transient Nat failThriceThenOk).2.1
    (str "ECONNRESET") (str "ECONNRESET") (str "ECONNRESET") 42
    rfl (by decide) rfl (by decide) rfl (by decide) rfl

/-- Claim C7 (amended): every entry returned by `getRelevantHistory` has
weighted score strictly above the 0.3 threshold; the returned entries are a
sublist of the history (so the existing newest-first order is preserved) of
length at most `maxEntries`; and a same-tool entry passes the threshold
whenever a cross-tool entry with equal keyword overlap does — but the final
`slice(0, maxEntries)` truncation is purely positional, so a same-tool entry
past the cut can be dropped while earlier cross-tool entries are returned. -/
theorem getRelevantHistory_spec (history : List ConversationEntry) (now : Int)
    (query tool : Str) (maxEntries : Nat) :
    (∀ e ∈ getRelevantHistory history now query tool maxEntries,
      (3 : ℚ) / 10 < (if e.tool = tool then (2 : ℚ) else 1)
          * calculateRelevance (e.query ++ str " " ++ e.response) (extractKeywords query)) ∧
    List.Sublist (getRelevantHistory history now query tool maxEntries) history ∧
    (getRelevantHistory history now query tool maxEntries).length ≤ maxEntries ∧
    (∀ e e' : ConversationEntry, e.tool = tool → e'.tool ≠ tool →
      calculateRelevance (e.query ++ str " " ++ e.response) (extractKeywords query)
        = calculateRelevance (e'.query ++ str " " ++ e'.response) (extractKeywords query) →
      (3 : ℚ) / 10 < (if e'.tool = tool then (2 : ℚ) else 1)
          * calculateRelevance (e'.query ++ str " " ++ e'.response) (extractKeywords query) →
      (3 : ℚ) / 10 < (if e.tool = tool then (2 : ℚ) else 1)
          * calculateRelevance (e.query ++ str " " ++ e.response) (extractKeywords query)) := by
  refine ⟨?_, ?_, ?_, ?_⟩
  · intro e he
    simp only [getRelevantHistory] at he
    have hf := List.mem_of_mem_take he
    have := (List.mem_filter.mp hf).2
    simpa [relevancePasses] using this
  · simp only [getRelevantHistory]
    exact ((List.take_sublist _ _).trans (List.filter_sublist _)).trans
      ((List.take_sublist _ _).trans (List.filter_sublist _))
  · simp only [getRelevantHistory]
    simp [List.length_take]
  · intro e e' het het' hrel hpass
    rw [if_pos het]
    rw [if_neg het'] at hpass
    rw [hrel]
    have h1 : (3 : ℚ) / 10
        < calculateRelevance (e'.query ++ str " " ++ e'.response) (extractKeywords query) := by
      simpa using hpass
    linarith

theorem calculateRelevance_keyword :
    calculateRelevance (str "keyword" ++ str " " ++ str "r") [str "keyword"] = 1 := by
  simp only [calculateRelevance]
  rw [show List.filter
        (fun keyword => containsSub keyword (toLowerStr (str "keyword" ++ str " " ++ str "r")))
        [str "keyword"] = [str "keyword"] from by decide]
  norm_num

theorem relevancePasses_cross (i : Nat) :
    relevancePasses [str "keyword"] (str "mytool") (crossEntry i) = true := by
  simp only [relevancePasses,
    show (crossEntry i).query = str "keyword" from rfl,
    show (crossEntry i).response = str "r" from rfl, calculateRelevance_keyword]
  rw [if_neg (show ¬((crossEntry i).tool = str "mytool") from by
    show ¬(str "other" = str "mytool")
    decide)]
  exact decide_eq_true (by norm_num)

theorem relevancePasses_same :
    relevancePasses [str "keyword"] (str "mytool") sameEntry = true := by
  simp only [relevancePasses,
    show sameEntry.query = str "keyword" from rfl,
    show sameEntry.response = str "r" from rfl, calculateRelevance_keyword]
  rw [if_pos (show sameEntry.tool = str "mytool" from rfl)]
  exact decide_eq_true (by norm_num)

/-- The concrete relevance selection of the C7 scenario: all six entries pass
the threshold, and the `slice(0, 5)` cut drops the oldest (same-tool) one. -/
theorem getRelevantHistory_pref :
    getRelevantHistory prefHistory 0 (str "keyword") (str "mytool") 5
      = [crossEntry 0, crossEntry 1, crossEntry 2, crossEntry 3, crossEntry 4] := by
  have hkw : extractKeywords (str "keyword") = [str "keyword"] := by decide
  have hfresh : getRecentHistory prefHistory 0 10 = prefHistory := by decide
  have hp : ∀ e ∈ prefHistory, relevancePasses [str "keyword"] (str "mytool") e = true := by
    intro e he
    simp only [prefHistory, List.mem_cons, List.not_mem_nil, or_false] at he
    rcases he with rfl | rfl | rfl | rfl | rfl | rfl
    · exact relevancePasses_cross 0
    · exact relevancePasses_cross 1
    · exact relevancePasses_cross 2
    · exact relevancePasses_cross 3
    · exact relevancePasses_cross 4
    · exact relevancePasses_same
  simp only [getRelevantHistory, hkw, hfresh, List.filter_eq_self.mpr hp]
  rfl

/-- Claim C7 counterexample: with six entries all passing the threshold and
the default limit 5, a cross-tool entry is retained while the same-tool entry
with equal keyword overlap (positioned past the cut) is not — same-tool
entries are not preferentially retained through the truncation. -/
theorem getRelevantHistory_preference_violation :
    sameEntry.tool = str "mytool" ∧
    (crossEntry 0).tool ≠ str "mytool" ∧
    calculateRelevance (sameEntry.query ++ str " " ++ sameEntry.response)
        (extractKeywords (str "keyword"))
      = calculateRelevance ((crossEntry 0).query ++ str " " ++ (crossEntry 0).response)
        (extractKeywords (str "keyword")) ∧
    crossEntry 0 ∈ getRelevantHistory prefHistory 0 (str "keyword") (str "mytool") 5 ∧
    sameEntry ∉ getRelevantHistory prefHistory 0 (str "keyword") (str "mytool") 5 := by
  refine ⟨rfl, by decide, rfl, ?_, ?_⟩
  · rw [getRelevantHistory_pref]
    exact List.mem_cons_self _ _
  · rw [getRelevantHistory_pref]
    decide

/-- Witness for getRelevantHistory_spec: the retained cross-tool entry of the
C7 scenario indeed scores above the threshold. -/
theorem getRelevantHistory_spec_witness :
    (3 : ℚ) / 10 < (if (crossEntry 0).tool = str "mytool" then (2 : ℚ) else 1)
        * calculateRelevance ((crossEntry 0).query ++ str " " ++ (crossEntry 0).response)
          (extractKeywords (str "keyword")) :=
  (getRelevantHistory_spec prefHistory 0 (str "keyword") (str "mytool") 5).1 (crossEntry 0)
    (by rw [getRelevantHistory_pref]; exact List.mem_cons_self _ _)

/-- Witness for addEntry_capacity: adding to an empty history stays within
the 20-entry capacity. -/
theorem addEntry_capacity_witness :
    (addEntry [] oldEntry 3).length ≤ MAX_HISTORY_ENTRIES :=
  addEntry_capacity.1 [] oldEntry 3 (by decide)

/-! ## splitOn scanning lemmas (for the C2 truncation analysis) -/

theorem splitOnAux_nil (sep : Str) (f : Nat) (acc : Str) :
    splitOnAux sep f acc [] = [acc.reverse] := by
  cases f <;> simp [splitOnAux]

theorem splitOnAux_fuel (hd : Char) (tl : Str) :
    ∀ (f f' : Nat) (acc s : Str), s.length ≤ f → s.length ≤ f' →
      splitOnAux (hd :: tl) f acc s = splitOnAux (hd :: tl) f' acc s := by
  intro f
  induction f with
  | zero =>
    intro f' acc s hf _
    have hs : s = [] := List.length_eq_zero.mp (Nat.le_zero.mp hf)
    subst hs
    rw [splitOnAux_nil, splitOnAux_nil]
  | succ g ih =>
    intro f' acc s hf hf'
    cases s with
    | nil => rw [splitOnAux_nil, splitOnAux_nil]
    | cons c rest =>
      cases f' with
      | zero => simp at hf'
      | succ g' =>
        simp only [splitOnAux]
        by_cases hpre : (hd :: tl).isPrefixOf (c :: rest) = true
        · rw [if_pos hpre, if_pos hpre]
          refine congrArg _ (ih g' [] _ ?_ ?_) <;>
            simp only [List.length_drop] <;> simp at hf hf' <;> omega
        · rw [if_neg hpre, if_neg hpre]
          refine ih g' (c :: acc) rest ?_ ?_ <;> simp at hf hf' <;> omega

theorem scanClear_append (sep X Y tail : Str) :
    scanClear sep (X ++ Y) tail = (scanClear sep X (Y ++ tail) && scanClear sep Y tail) := by
  induction X with
  | nil => simp [scanClear]
  | cons c rest ih => simp [scanClear, ih, Bool.and_assoc]

theorem scanClear_of_ne (hd : Char) (tl A tail : Str) (h : ∀ c ∈ A, c ≠ hd) :
    scanClear (hd :: tl) A tail = true := by
  induction A with
  | nil => simp [scanClear]
  | cons c rest ih =>
    have hc : c ≠ hd := h c (List.mem_cons_self c rest)
    have hbeq : (hd == c) = false := beq_eq_false_iff_ne.mpr (Ne.symm hc)
    have hpre : (hd :: tl).isPrefixOf (c :: (rest ++ tail)) = false := by
      simp [List.isPrefixOf, hbeq]
    simp [scanClear, hpre, ih (fun x hx => h x (List.mem_cons_of_mem c hx))]

theorem splitOnAux_through (hd : Char) (tl : Str) :
    ∀ (A acc B : Str) (f : Nat),
      scanClear (hd :: tl) A ((hd :: tl) ++ B) = true →
      (A ++ ((hd :: tl) ++ B)).length ≤ f →
      splitOnAux (hd :: tl) f acc (A ++ ((hd :: tl) ++ B))
        = (acc.reverse ++ A) :: splitOnAux (hd :: tl) B.length [] B := by
  intro A
  induction A with
  | nil =>
    intro acc B f _ hf
    cases f with
    | zero => simp at hf
    | succ g =>
      have hpre : (hd :: tl).isPrefixOf ((hd :: tl) ++ B) = true :=
        List.isPrefixOf_iff_prefix.mpr (List.prefix_append _ _)
      rw [show ([] ++ ((hd :: tl) ++ B)) = hd :: (tl ++ B) from by simp]
      simp only [splitOnAux]
      rw [if_pos (show (hd :: tl).isPrefixOf (hd :: (tl ++ B)) = true from hpre)]
      rw [show ((hd :: tl).length - 1) = tl.length from by simp]
      rw [List.drop_left]
      rw [splitOnAux_fuel hd tl g B.length [] B (by simp at hf; omega) le_rfl]
      simp
  | cons a A' ih =>
    intro acc B f hclear hf
    rw [show ((a :: A') ++ ((hd :: tl) ++ B)) = a :: (A' ++ ((hd :: tl) ++ B)) from by simp]
    cases f with
    | zero => simp at hf
    | succ g =>
      simp only [scanClear, Bool.and_eq_true, Bool.not_eq_true'] at hclear
      obtain ⟨hnp, hclear'⟩ := hclear
      have hnp' : (hd :: tl).isPrefixOf (a :: (A' ++ ((hd :: tl) ++ B))) = false := by
        simpa using hnp
      simp only [splitOnAux, hnp', Bool.false_eq_true, if_false]
      rw [ih (a :: acc) B g hclear' (by simp at hf ⊢; omega)]
      simp

theorem splitOnAux_clear_all (hd : Char) (tl : Str) :
    ∀ (B acc : Str) (f : Nat), scanClear (hd :: tl) B [] = true → B.length ≤ f →
      splitOnAux (hd :: tl) f acc B = [acc.reverse ++ B] := by
  intro B
  induction B with
  | nil =>
    intro acc f _ _
    rw [splitOnAux_nil]
    simp
  | cons c rest ih =>
    intro acc f hclear hf
    cases f with
    | zero => simp at hf
    | succ g =>
      simp only [scanClear, Bool.and_eq_true, Bool.not_eq_true'] at hclear
      obtain ⟨hnp, hclear'⟩ := hclear
      have hnp' : (hd :: tl).isPrefixOf (c :: rest) = false := by
        simpa using hnp
      simp only [splitOnAux, hnp', Bool.false_eq_true, if_false]
      rw [ih (c :: acc) g hclear' (by simp at hf; omega)]
      simp

theorem splitOnL_cons_first (hd : Char) (tl A B : Str)
    (hA : scanClear (hd :: tl) A ((hd :: tl) ++ B) = true) :
    splitOnL (A ++ ((hd :: tl) ++ B)) (hd :: tl) = A :: splitOnL B (hd :: tl) := by
  simp only [splitOnL, List.isEmpty_cons, Bool.false_eq_true, if_false]
  rw [splitOnAux_through hd tl A [] B _ hA le_rfl]
  simp

theorem splitOnL_no_match (hd : Char) (tl B : Str)
    (hB : scanClear (hd :: tl) B [] = true) :
    splitOnL B (hd :: tl) = [B] := by
  simp only [splitOnL, List.isEmpty_cons, Bool.false_eq_true, if_false]
  rw [splitOnAux_clear_all hd tl B [] B.length hB le_rfl]
  simp

/-! ## Concrete C2 scenario: an assembled block that stays over budget -/

theorem summarize_eq : summarizeProject cPC = cS := by decide

theorem fmtHist_eq :
    formatConversationHistory cIso (getRecentHistory [] 0 5)
      = str "No previous conversation history" := by decide

theorem histLit_split :
    str "\n\n## Recent Conversation History\n"
      = str "\n\n" ++ (historyMarker ++ str "\n") := by decide

theorem queryLit_split :
    str "\n\n## Current Query\nTool: "
      = str "\n\n" ++ (queryMarker ++ str "\nTool: ") := by decide

theorem cCtx_decomp : cCtx = cA ++ (historyMarker ++ cRest) := by
  show assembleContext cIso cPC bigFiller [] 0 (str "q") (str "t") = _
  simp only [assembleContext]
  rw [fmtHist_eq, summarize_eq, histLit_split, queryLit_split]
  simp only [cA, cRest, cM, cQ, List.append_assoc]

theorem historyMarker_eq : historyMarker = '#' :: str "# Recent Conversation History" := by
  decide

theorem cA_clear : scanClear historyMarker cA (historyMarker ++ cRest) = true := by
  rw [historyMarker_eq]
  show scanClear _
    (str "# PROJECT CONTEXT\n\n## Project Overview\n"
      ++ (cS ++ (str "\n\n## Relevant Files\n" ++ (bigFiller ++ str "\n\n")))) _ = true
  rw [scanClear_append, scanClear_append, scanClear_append, scanClear_append]
  have hfiller : ∀ tail, scanClear ('#' :: str "# Recent Conversation History") bigFiller tail
      = true := by
    intro tail
    refine scanClear_of_ne _ _ _ _ ?_
    intro c hc
    have hca : c = 'a' := List.eq_of_mem_replicate hc
    subst hca
    decide
  rw [hfiller]
  have h0 : ∀ tail : Str, scanClear ('#' :: str "# Recent Conversation History")
      (str "# PROJECT CONTEXT\n\n## Project Overview\n") tail = true := by
    intro tail
    simp [scanClear, str, List.isPrefixOf]
  have h1 : ∀ tail : Str, scanClear ('#' :: str "# Recent Conversation History")
      cS tail = true := by
    intro tail
    simp [scanClear, cS, str, List.isPrefixOf]
  have h2 : ∀ tail : Str, scanClear ('#' :: str "# Recent Conversation History")
      (str "\n\n## Relevant Files\n") tail = true := by
    intro tail
    simp [scanClear, str, List.isPrefixOf]
  have h3 : ∀ tail : Str, scanClear ('#' :: str "# Recent Conversation History")
      (str "\n\n") tail = true := by
    intro tail
    simp [scanClear, str, List.isPrefixOf]
  rw [h0, h1, h2, h3]
  rfl

theorem cRest_clear : scanClear historyMarker cRest [] = true := by decide

theorem cCtx_split1 : splitOnL cCtx historyMarker = [cA, cRest] := by
  have h1 := cA_clear
  have h2 := cRest_clear
  rw [cCtx_decomp]
  rw [historyMarker_eq] at h1 h2 ⊢
  rw [splitOnL_cons_first _ _ _ _ h1, splitOnL_no_match _ _ _ h2]

theorem cRest_split2 : splitOnL cRest queryMarker = [cM, cQ] := by decide

theorem cA_length : cA.length = 33121 := by
  rw [show cA = str "# PROJECT CONTEXT\n\n## Project Overview\n"
      ++ (cS ++ (str "\n\n## Relevant Files\n" ++ (bigFiller ++ str "\n\n"))) from rfl]
  rw [List.length_append, List.length_append, List.length_append, List.length_append]
  rw [show bigFiller.length = 33000 from List.length_replicate ..]
  rw [show (str "# PROJECT CONTEXT\n\n## Project Overview\n").length = 39 from by decide,
    show cS.length = 60 from by decide,
    show (str "\n\n## Relevant Files\n").length = 20 from by decide,
    show (str "\n\n").length = 2 from by decide]

theorem cCtx_length : cCtx.length = 33226 := by
  rw [cCtx_decomp, List.length_append, List.length_append, cA_length]
  rw [show historyMarker.length = 30 from by decide,
    show cRest.length = 75 from by decide]

theorem estimateTokenCount_big (s : Str) (h : 32001 ≤ s.length) :
    MAX_CONTEXT_TOKENS < estimateTokenCount s := by
  simp only [estimateTokenCount, MAX_CONTEXT_TOKENS]
  omega

theorem cCtx_budget : MAX_CONTEXT_TOKENS < estimateTokenCount cCtx :=
  estimateTokenCount_big cCtx (by rw [cCtx_length]; norm_num)

theorem cCtx_collapse : truncateContext cCtx = cA ++ collapsedHistorySection ++ cQ := by
  have hlen : ¬(cCtx.length ≤ MAX_CONTEXT_TOKENS * 4) := by
    rw [cCtx_length]
    decide
  simp only [truncateContext]
  rw [if_neg hlen]
  simp only [cCtx_split1, cRest_split2]

theorem collapse_length : (cA ++ collapsedHistorySection ++ cQ).length = 33240 := by
  rw [List.length_append, List.length_append, cA_length]
  rw [show collapsedHistorySection.length = 95 from by decide,
    show cQ.length = 24 from by decide]

theorem cCtx_collapse_budget :
    MAX_CONTEXT_TOKENS < estimateTokenCount (cA ++ collapsedHistorySection ++ cQ) :=
  estimateTokenCount_big _ (by rw [collapse_length]; norm_num)

/-- Claim C2 (amended): when the assembled block exceeds the 8000-token budget
the assembler calls `truncateContext`; if the block splits cleanly at the two
section markers (exactly one occurrence of each, in order), the
conversation-history section is replaced by the collapse placeholder while the
text before the history marker and the text after the query marker are
preserved verbatim — and this collapsed block is returned even when it is
still over budget.  The hard character truncation with its appended marker is
applied only when the block does not split cleanly into the expected sections,
not when the collapse is insufficient. -/
theorem truncateContext_spec :
    (∀ context B R M Q : Str,
      MAX_CONTEXT_TOKENS < estimateTokenCount context →
      splitOnL context historyMarker = [B, R] →
      splitOnL R queryMarker = [M, Q] →
      truncateContext context = B ++ collapsedHistorySection ++ Q) ∧
    (∀ context : Str,
      MAX_CONTEXT_TOKENS < estimateTokenCount context →
      (∀ B R : Str, splitOnL context historyMarker ≠ [B, R]) →
      truncateContext context
        = context.take (MAX_CONTEXT_TOKENS * 4) ++ hardTruncationMarker) ∧
    (∀ context B R : Str,
      MAX_CONTEXT_TOKENS < estimateTokenCount context →
      splitOnL context historyMarker = [B, R] →
      (∀ M Q : Str, splitOnL R queryMarker ≠ [M, Q]) →
      truncateContext context
        = context.take (MAX_CONTEXT_TOKENS * 4) ++ hardTruncationMarker) ∧
    (∀ (iso : Int → Str) (pc : ProjectContext) (fileContents : Str)
        (history : List ConversationEntry) (now : Int) (query tool : Str),
      MAX_CONTEXT_TOKENS
          < estimateTokenCount (assembleContext iso pc fileContents history now query tool) →
      buildFullContext iso pc fileContents history now query tool
        = truncateContext (assembleContext iso pc fileContents history now query tool)) := by
  have hlen : ∀ context : Str, MAX_CONTEXT_TOKENS < estimateTokenCount context →
      ¬(context.length ≤ MAX_CONTEXT_TOKENS * 4) := by
    intro context h
    simp only [estimateTokenCount, MAX_CONTEXT_TOKENS] at h ⊢
    omega
  refine ⟨?_, ?_, ?_, ?_⟩
  · intro context B R M Q hb h1 h2
    simp only [truncateContext]
    rw [if_neg (hlen context hb)]
    simp only [h1, h2]
  · intro context hb hne
    simp only [truncateContext]
    rw [if_neg (hlen context hb)]
  · intro context B R hb h1 hne
    simp only [truncateContext]
    rw [if_neg (hlen context hb)]
    simp only [h1]
  · intro iso pc fileContents history now query tool hb
    simp only [buildFullContext]
    rw [if_pos hb]

/-- Witness for truncateContext_spec: its collapse clause applied to the
over-budget block of the C2 scenario. -/
theorem truncateContext_spec_witness :
    truncateContext cCtx = cA ++ collapsedHistorySection ++ cQ :=
  truncateContext_spec.1 cCtx cA cRest cM cQ cCtx_budget cCtx_split1 cRest_split2

/-- Claim C2 counterexample: the block assembled from the C2 scenario exceeds
the budget, its collapse leaves it still over budget (33240 characters, 8310
estimated tokens), yet `truncateContext` returns the collapsed block as is: it
is not hard-truncated to the character budget and no truncation marker is
appended. -/
theorem truncateContext_insufficient_collapse :
    MAX_CONTEXT_TOKENS < estimateTokenCount cCtx ∧
    buildFullContext cIso cPC bigFiller [] 0 (str "q") (str "t") = truncateContext cCtx ∧
    MAX_CONTEXT_TOKENS < estimateTokenCount (truncateContext cCtx) ∧
    truncateContext cCtx ≠ cCtx.take (MAX_CONTEXT_TOKENS * 4) ++ hardTruncationMarker := by
  refine ⟨cCtx_budget, ?_, ?_, ?_⟩
  · simp only [buildFullContext]
    rw [show assembleContext cIso cPC bigFiller [] 0 (str "q") (str "t") = cCtx from rfl]
    rw [if_pos cCtx_budget]
  · rw [cCtx_collapse]
    exact cCtx_collapse_budget
  · rw [cCtx_collapse]
    intro h
    have h3 := congrArg List.length h
    rw [collapse_length, List.length_append] at h3
    have h2 : (cCtx.take (MAX_CONTEXT_TOKENS * 4)).length ≤ MAX_CONTEXT_TOKENS * 4 := by
      rw [List.length_take]
      exact min_le_left _ _
    have h4 : hardTruncationMarker.length = 38 := by decide
    have h5 : MAX_CONTEXT_TOKENS * 4 = 32000 := by decide
    rw [h4, h5] at h3
    rw [h5] at h2
    omega
